import Mathlib

/-!
Shallow embedding of the `lab-aggregate` repository core:
the event-sourcing `AggregateRoot` engine
(`src/packages/aggregate/src/aggregate.ts`) and the fluent assertion
toolkit (`src/packages/aggregate/src/utils/test-toolkit.ts`).

Events are plain named records.  A field value is a scalar (string,
integer or boolean) or an array of scalars, which is what the toolkit's
structural comparison distinguishes (strict equality for scalars,
containment for arrays).  A JavaScript property that is absent reads as
`undefined`; we model a field lookup as an `Option Value`.
-/

set_option autoImplicit false

namespace LabAggregate

/-- A scalar field value: string, integer or boolean. -/
inductive Scalar where
  | s : String → Scalar
  | i : Int → Scalar
  | b : Bool → Scalar
deriving DecidableEq, Repr

/-- A field value carried by an event: a scalar or an array of scalars. -/
inductive Value where
  | prim : Scalar → Value
  | arr : List Scalar → Value
deriving DecidableEq, Repr

/-- Is the value an array?  Mirrors JavaScript `Array.isArray`. -/
def Value.isArr : Value → Bool
  | .prim _ => false
  | .arr _ => true

/-- An event: its type identity (the constructor name reported by
`getEventProtoName`) together with its own named fields. -/
structure Event where
  kind : String
  fields : List (String × Value)
deriving DecidableEq, Repr

/-- Property read `event[prop]`; `none` models JavaScript `undefined`. -/
def Event.getField (e : Event) (p : String) : Option Value :=
  (e.fields.find? (fun kv => kv.1 == p)).map Prod.snd

/-- An event node: an event wrapped with persistence metadata, the
alternate replay input format accepted by `loadFromEventNodes`. -/
structure EventNode where
  event : Event
  nodeId : String
  nodeIndex : Nat
deriving DecidableEq, Repr

/-- The aggregate's projected state, an open-ended string-keyed mapping. -/
def Model := List (String × Value)

/-- The handler table of a concrete aggregate subclass: method lookup by
name, `some` exactly when a callable method with that name exists on the
instance.  A state handler mutates the projected state given the event. -/
def Handlers := String → Option (Model → Event → Model)

/-- A handler table with no `on<EventName>` method at all, as on a bare
`AggregateRoot` instance. -/
def noHandlers : Handlers := fun _ => none

/-- The aggregate: projected state, the uncommitted-event buffer, the
append-only replay records, and the optional single-slot failure
handler (identified by a tag; its side effects are external). -/
structure Aggregate where
  id : String
  state : Model
  uncommittedEvents : List Event
  loadedEvents : List Event
  loadedEventNodes : List EventNode
  failureHandler : Option Nat

/-- A freshly constructed `AggregateRoot`: empty buffers, empty state. -/
def Aggregate.fresh (id : String) : Aggregate :=
  ⟨id, [], [], [], [], none⟩

/-- `getEventHandler`: resolve the handler method named by prefixing
`on` to the event's type identity; `some` only on an exact-name match
with a callable method. -/
def getEventHandler (h : Handlers) (e : Event) : Option (Model → Event → Model) :=
  h ("on" ++ e.kind)

/-- The state effect of dispatching one event: invoke the resolved
handler, or leave state untouched when no handler matches
(`handler && handler.call(this, event)`). -/
def dispatch (h : Handlers) (m : Model) (e : Event) : Model :=
  match getEventHandler h e with
  | some f => f m e
  | none => m

/-- `apply(event, isFromHistory)`: if not from history, push the event
onto the uncommitted buffer first; then dispatch it to its handler. -/
def Aggregate.apply (h : Handlers) (a : Aggregate) (e : Event) (isFromHistory : Bool) : Aggregate :=
  let a1 := if isFromHistory then a
    else { a with uncommittedEvents := a.uncommittedEvents ++ [e] }
  { a1 with state := dispatch h a1.state e }

/-- `commit()`: clear the uncommitted buffer (`length = 0`). -/
def Aggregate.commit (a : Aggregate) : Aggregate :=
  { a with uncommittedEvents := [] }

/-- `uncommit()`: clear the uncommitted buffer, mechanically identical
to `commit`. -/
def Aggregate.uncommit (a : Aggregate) : Aggregate :=
  { a with uncommittedEvents := [] }

/-- `loadFromHistory(history)`: for each event in order, apply it with
`isFromHistory = true` and push it onto the loaded-events record. -/
def loadFromHistory (h : Handlers) (a : Aggregate) (history : List Event) : Aggregate :=
  history.foldl (fun acc e =>
    let acc1 := acc.apply h e true
    { acc1 with loadedEvents := acc1.loadedEvents ++ [e] }) a

/-- `loadFromEventNodes(nodes)`: for each node in order, apply its event
with `isFromHistory = true` and push the node onto the node record; then
run the full `loadFromHistory` pass over the extracted events. -/
def loadFromEventNodes (h : Handlers) (a : Aggregate) (nodes : List EventNode) : Aggregate :=
  let a1 := nodes.foldl (fun acc n =>
    let acc1 := acc.apply h n.event true
    { acc1 with loadedEventNodes := acc1.loadedEventNodes ++ [n] }) a
  loadFromHistory h a1 (nodes.map EventNode.event)

/-- `snapshot()`: the default implementation returns nothing. -/
def Aggregate.snapshot (_ : Aggregate) : Option Event := none

/-- `setFailureHandler(handler)`: install the callback, replacing any
previous one. -/
def Aggregate.setFailureHandler (a : Aggregate) (h : Nat) : Aggregate :=
  { a with failureHandler := some h }

/-- `fail(error)`: with a handler installed, invoke it with the error and
return (`.ok (handler, error)` records the invocation); with none,
raise the error to the caller. -/
def Aggregate.fail (a : Aggregate) (err : String) : Except String (Nat × String) :=
  match a.failureHandler with
  | some h => .ok (h, err)
  | none => .error err

/-! ## Assertion toolkit (`utils/test-toolkit.ts`) -/

/-- `occurances(list, key)`: how many entries of the list equal the key
(the source's spelling is kept). -/
def occurances (list : List String) (key : String) : Nat :=
  list.foldl (fun acc curr => acc + (if curr == key then 1 else 0)) 0

/-- The error raised by `throwError`: descriptive message plus the
`actual` and `expected` payload fields attached to the error object. -/
structure AssertError where
  message : String
  actual : String
  expected : String
deriving DecidableEq, Repr

/-- The first failure produced while iterating a list, mirroring a
JavaScript `forEach` whose body may `throw`: a raise unwinds the loop at
the first failing element. -/
def firstSome {α β : Type} (l : List α) (f : α → Option β) : Option β :=
  match l with
  | [] => none
  | x :: xs =>
    match f x with
    | some e => some e
    | none => firstSome xs f

/-- Render a scalar the way JavaScript string interpolation does. -/
def Scalar.render : Scalar → String
  | .s v => v
  | .i v => toString v
  | .b v => if v then "true" else "false"

/-- Render a field value the way JavaScript string interpolation does
(arrays join their elements with commas). -/
def Value.render : Value → String
  | .prim v => v.render
  | .arr vs => String.intercalate "," (vs.map Scalar.render)

/-- Render an optional property value; an absent property interpolates
as the text `undefined`. -/
def renderField : Option Value → String
  | some v => v.render
  | none => "undefined"

/-- `assertEvent`, evaluated over the aggregate's current
uncommitted-event buffer.  `targets` is the recorded target-event list
(each target is identified by its class name), `occExp` the
`occuranceExpectation` (initially `-1`).  The `debug` flag only prints
and never alters the outcome, so it is not modelled. -/
def assertEvent (flags : List String) (targets : List String) (occExp : Int)
    (uncommitted : List Event) : Except AssertError Unit :=
  let names := uncommitted.map Event.kind
  if uncommitted.length == 0 then
    .error ⟨"There are no events in the aggregate event stream to evaluate.",
      toString uncommitted.length, "1 or more"⟩
  else if flags.contains "excludes" then
    match firstSome targets (fun t =>
      let occuredCount := occurances names t
      if occuredCount ≠ 0 then
        some ⟨s!"Event {t} was found in the aggregate event stream.",
          toString occuredCount, "0"⟩
      else none) with
    | some err => .error err
    | none => .ok ()
  else
    let exactlyCheck : Option AssertError :=
      if flags.contains "exactly" then
        firstSome targets (fun t =>
          let eventCount := occurances names t
          if (eventCount : Int) ≠ occExp then
            some ⟨s!"Event {t} did not match exact event count in the aggregate stream.",
              toString eventCount, toString occExp⟩
          else none)
      else none
    let oneCheck : Option AssertError :=
      if flags.contains "one" then
        firstSome targets (fun t =>
          let eventCount := occurances names t
          if eventCount < 1 then
            some ⟨s!"Event {t} was not found in the aggregate event stream.",
              toString eventCount, "1"⟩
          else if eventCount > 1 then
            some ⟨s!"Event {t} occurs more than once in the aggregate event stream.",
              toString eventCount, "1"⟩
          else none)
      else none
    let firstCheck : Option AssertError :=
      if flags.contains "first" then
        let firstUncommittedEventName := (uncommitted.headD ⟨"", []⟩).kind
        firstSome targets (fun t =>
          if firstUncommittedEventName ≠ t then
            some ⟨s!"Event {t} is not the first event in the aggregate event stream.",
              t, firstUncommittedEventName⟩
          else none)
      else none
    let lastCheck : Option AssertError :=
      if flags.contains "last" then
        let lastUncommittedEventName := ((uncommitted.getLast? ).getD ⟨"", []⟩).kind
        firstSome targets (fun t =>
          if lastUncommittedEventName ≠ t then
            some ⟨s!"Event {t} is not the last event in the aggregate event stream.",
              t, lastUncommittedEventName⟩
          else none)
      else none
    let hasCheck : Option AssertError :=
      if flags.contains "has" && ! flags.contains "one" && ! flags.contains "exactly" then
        firstSome targets (fun t =>
          let eventCount := occurances names t
          if eventCount == 0 then
            some ⟨s!"Event {t} did not match any events in the aggregate stream.", "", ""⟩
          else none)
      else none
    match exactlyCheck with
    | some err => .error err
    | none =>
      match oneCheck with
      | some err => .error err
      | none =>
        match firstCheck with
        | some err => .error err
        | none =>
          match lastCheck with
          | some err => .error err
          | none =>
            match hasCheck with
            | some err => .error err
            | none => .ok ()

/-- One property comparison of `assertEventParams`: when both the
event's property and the expected value are arrays, the event's array
must contain the expected one (`expect(...).to.contain(...)`); otherwise
strict equality, where an absent property (`undefined`) never equals a
supplied value. -/
def propPasses (uVal : Option Value) (pVal : Value) : Bool :=
  match uVal, pVal with
  | some (.arr xs), .arr ys => ys.all (fun y => xs.contains y)
  | uv, w => uv == some w

/-- The failure raised for one failing property comparison against one
event, with the `actual`/`expected` payloads the source interpolates. -/
def propFailure (u : Event) (eventName : String) (p : String) (pVal : Value) :
    Option AssertError :=
  let actualText := renderField (u.getField p)
  let expectedText := pVal.render
  match u.getField p, pVal with
  | some (.arr xs), .arr ys =>
    if ys.all (fun y => xs.contains y) then none
    else
      some ⟨s!"No property {p} does not match required list",
        s!"{p} - {actualText}", s!"{p} - {expectedText}"⟩
  | uv, w =>
    if uv == some w then none
    else
      some ⟨s!"No matching property found on event {eventName} for property {p}",
        s!"{p} - {actualText}", s!"{p} - {expectedText}"⟩

/-- The non-`last` scan of `assertEventParams`: for each recorded
target, every uncommitted event whose type identity matches it is
compared property by property; the first mismatch raises. -/
def includesScan (targets : List String) (params : List (String × Value))
    (uncommitted : List Event) : Option AssertError :=
  firstSome targets (fun t =>
    firstSome uncommitted (fun u =>
      if t == u.kind then
        firstSome params (fun pv => propFailure u t pv.1 pv.2)
      else none))

/-- `assertEventParams(params)` (the `includes` check).  With the `last`
flag armed it compares the last uncommitted event's properties; without
it, every uncommitted event whose type identity matches a recorded
target event is compared property by property, raising at the first
mismatch.  Reading a property off the last event of an empty buffer is a
JavaScript `TypeError`, modelled as an error result. -/
def assertEventParams (flags : List String) (targets : List String)
    (params : List (String × Value)) (uncommitted : List Event) :
    Except AssertError Unit :=
  if targets.length == 0 then
    .error ⟨"No events listed - cannot assert event includes params", "", ""⟩
  else if flags.contains "last" then
    match uncommitted.getLast? with
    | none =>
      .error ⟨"TypeError: cannot read properties of undefined", "", ""⟩
    | some lastUncommittedEvent =>
      let eventName := (targets.getLast? ).getD ""
      let lastName := lastUncommittedEvent.kind
      match firstSome params (fun pv =>
        let p := pv.1
        let actualText := renderField (lastUncommittedEvent.getField p)
        let expectedText := pv.2.render
        match lastUncommittedEvent.getField p, pv.2 with
        | some (.arr xs), .arr ys =>
          if ys.all (fun y => xs.contains y) then none
          else
            some ⟨s!"No property {p} does not match required list",
              s!"{p} - {actualText}", s!"{p} - {expectedText}"⟩
        | uv, w =>
          if uv == some w then none
          else
            some ⟨s!"No matching property found on last event {eventName} for property {p} with last aggregate event {lastName}",
              s!"{p} - {actualText}", s!"{p} - {expectedText}"⟩) with
      | some err => .error err
      | none => .ok ()
  else
    match includesScan targets params uncommitted with
    | some err => .error err
    | none => .ok ()

/-- Substring membership on character lists: is `needle` a contiguous
sub-sequence of `hay`? -/
def subListOf (needle hay : List Char) : Bool :=
  match hay with
  | [] => needle.isEmpty
  | _ :: t => needle.isPrefixOf hay || subListOf needle t

/-- JavaScript `hay.includes(needle)`: exact substring membership. -/
def strIncludes (hay needle : String) : Bool :=
  subListOf needle.data hay.data

/-- JavaScript `s.toLowerCase()` restricted to its ASCII action,
character by character. -/
def lowerStr (s : String) : String :=
  ⟨s.data.map Char.toLower⟩

/-- An operation run under `when`/`after`: it may mutate the aggregate
or raise an error carrying a message. -/
def WhenCallback := Aggregate → Except String Aggregate

/-- `assertWhen(fn)`: with the `throws` flag armed, run the operation
and capture a raised error; if a `with` message is set (and non-empty,
JavaScript truthiness), the raised message must contain it
case-insensitively, else an "Expected error message did not match"
failure; if the operation did not raise at all, a "Failed to throw"
failure.  Without the flag, just run the operation. -/
def assertWhen (flags : List String) (withMessage : Option String)
    (fn : WhenCallback) (a : Aggregate) : Except AssertError Aggregate :=
  if flags.contains "throws" then
    match fn a with
    | .ok _ =>
      .error ⟨"Failed to throw error for aggregate method", "", ""⟩
    | .error errMessage =>
      let left := lowerStr errMessage
      match withMessage with
      | some w =>
        if w != "" && ! strIncludes left (lowerStr w) then
          .error ⟨"Expected error message did not match", errMessage, w⟩
        else .ok a
      | none => .ok a
  else
    match fn a with
    | .ok a2 => .ok a2
    | .error errMessage => .error ⟨errMessage, "", ""⟩

/-- The mutable state accumulated by one assertion chain: the armed
flags, the recorded target-event class names, the occurrence-count
expectation (initially `-1`) and the optional expected-error-message
substring. -/
structure Chain where
  flags : List String
  targets : List String
  occuranceExpectation : Int
  withMessage : Option String
deriving DecidableEq, Repr

/-- `check(aggregate)`: a fresh chain with no flags, no targets, no
count expectation and no expected message. -/
def check0 : Chain := ⟨[], [], -1, none⟩

/-- The `has` flag accessor. -/
def Chain.has (c : Chain) : Chain := { c with flags := c.flags ++ ["has"] }

/-- The `first` flag accessor. -/
def Chain.first (c : Chain) : Chain := { c with flags := c.flags ++ ["first"] }

/-- The `last` flag accessor. -/
def Chain.last (c : Chain) : Chain := { c with flags := c.flags ++ ["last"] }

/-- The `one` flag accessor. -/
def Chain.one (c : Chain) : Chain := { c with flags := c.flags ++ ["one"] }

/-- The `excludes` flag accessor. -/
def Chain.excludes (c : Chain) : Chain := { c with flags := c.flags ++ ["excludes"] }

/-- The `throws` flag accessor. -/
def Chain.throws (c : Chain) : Chain := { c with flags := c.flags ++ ["throws"] }

/-- The `debug` flag accessor. -/
def Chain.debug (c : Chain) : Chain := { c with flags := c.flags ++ ["debug"] }

/-- `exactly(n)`: arm the `exactly` flag and set the count expectation. -/
def Chain.exactly (c : Chain) (n : Int) : Chain :=
  { c with flags := c.flags ++ ["exactly"], occuranceExpectation := n }

/-- `with(message)`: record the expected error-message substring. -/
def Chain.withMsg (c : Chain) (value : String) : Chain :=
  { c with withMessage := some value }

/-- `and`: restart a fresh chain bound to the same aggregate. -/
def Chain.andThen (_ : Chain) : Chain := check0

/-- `that` / `it`: no-op passthroughs. -/
def Chain.that (c : Chain) : Chain := c

/-- `event(e)`: record the single target (replacing any previous
targets) and immediately evaluate the accumulated flags against the
aggregate's uncommitted-event buffer. -/
def Chain.event (c : Chain) (a : Aggregate) (t : String) : Except AssertError Chain :=
  let c1 := { c with targets := [t] }
  match assertEvent c1.flags c1.targets c1.occuranceExpectation a.uncommittedEvents with
  | .error err => .error err
  | .ok _ => .ok c1

/-- `events(es)`: record the target list (replacing any previous
targets) and immediately evaluate. -/
def Chain.events (c : Chain) (a : Aggregate) (ts : List String) : Except AssertError Chain :=
  let c1 := { c with targets := ts }
  match assertEvent c1.flags c1.targets c1.occuranceExpectation a.uncommittedEvents with
  | .error err => .error err
  | .ok _ => .ok c1

/-- `includes(params)`: evaluate the field-inclusion check against the
recorded targets. -/
def Chain.includes (c : Chain) (a : Aggregate) (params : List (String × Value)) :
    Except AssertError Chain :=
  match assertEventParams c.flags c.targets params a.uncommittedEvents with
  | .error err => .error err
  | .ok _ => .ok c

/-- `when(fn)`: run the operation through `assertWhen`. -/
def Chain.when (c : Chain) (a : Aggregate) (fn : WhenCallback) :
    Except AssertError (Chain × Aggregate) :=
  match assertWhen c.flags c.withMessage fn a with
  | .error err => .error err
  | .ok a2 => .ok (c, a2)

/-- `after(fns)`: run each operation through `assertWhen` strictly in
order, awaiting each before proceeding. -/
def Chain.after (c : Chain) (a : Aggregate) (fns : List WhenCallback) :
    Except AssertError (Chain × Aggregate) :=
  match fns with
  | [] => .ok (c, a)
  | fn :: rest =>
    match assertWhen c.flags c.withMessage fn a with
    | .error err => .error err
    | .ok a2 => Chain.after c a2 rest

/-- `loads(eventStream)`: delegate to the aggregate's
`loadFromHistory`. -/
def Chain.loads (c : Chain) (h : Handlers) (a : Aggregate) (es : List Event) :
    (Chain × Aggregate) :=
  (c, loadFromHistory h a es)

/-! ## The aggregate's public operations as a step relation -/

/-- One invocation of a public `AggregateRoot` operation. -/
inductive Op where
  | applyOp (e : Event) (isFromHistory : Bool)
  | commitOp
  | uncommitOp
  | loadFromHistoryOp (es : List Event)
  | loadFromEventNodesOp (ns : List EventNode)
  | snapshotOp
  | setFailureHandlerOp (h : Nat)
  | failOp (err : String)
  | getStateOp
  | getUncommittedEventsOp
  | getLoadedEventsOp
  | getLoadedEventNodesOp

/-- The effect of one public operation on the aggregate.  Getters and
`snapshot` read without mutating; `fail` either invokes the external
handler or raises, and in both cases leaves the aggregate unchanged. -/
def step (h : Handlers) (a : Aggregate) : Op → Aggregate
  | .applyOp e b => a.apply h e b
  | .commitOp => a.commit
  | .uncommitOp => a.uncommit
  | .loadFromHistoryOp es => loadFromHistory h a es
  | .loadFromEventNodesOp ns => loadFromEventNodes h a ns
  | .snapshotOp => a
  | .setFailureHandlerOp hd => a.setFailureHandler hd
  | .failOp _ => a
  | .getStateOp => a
  | .getUncommittedEventsOp => a
  | .getLoadedEventsOp => a
  | .getLoadedEventNodesOp => a

/-! ## Concrete fixtures -/

/-- A plain event named `First` with no fields. -/
def evFirst : Event := ⟨"First", []⟩

/-- A plain event named `Middle` with no fields. -/
def evMiddle : Event := ⟨"Middle", []⟩

/-- A plain event named `Last` with no fields. -/
def evLast : Event := ⟨"Last", []⟩

/-- A plain event named `Updated` with no fields. -/
def evUpdated : Event := ⟨"Updated", []⟩

/-- A fresh bare aggregate. -/
def agg0 : Aggregate := Aggregate.fresh "agg-01"

/-- The aggregate after applying `First`, `Middle`, `Last` in order. -/
def aggFML : Aggregate :=
  ((agg0.apply noHandlers evFirst false).apply noHandlers evMiddle false).apply
    noHandlers evLast false

/-! ## Basic unfolding lemmas -/

theorem loadFromHistory_nil (h : Handlers) (a : Aggregate) :
    loadFromHistory h a [] = a := rfl

theorem loadFromHistory_cons (h : Handlers) (a : Aggregate) (e : Event) (es : List Event) :
    loadFromHistory h a (e :: es) =
      loadFromHistory h
        (let a1 := a.apply h e true
         { a1 with loadedEvents := a1.loadedEvents ++ [e] }) es := rfl

theorem apply_fromHistory_fields (h : Handlers) (a : Aggregate) (e : Event) :
    (a.apply h e true).uncommittedEvents = a.uncommittedEvents ∧
    (a.apply h e true).loadedEvents = a.loadedEvents ∧
    (a.apply h e true).loadedEventNodes = a.loadedEventNodes ∧
    (a.apply h e true).state = dispatch h a.state e := by
  simp [Aggregate.apply]

theorem loadFromHistory_fields (h : Handlers) (a : Aggregate) (es : List Event) :
    (loadFromHistory h a es).uncommittedEvents = a.uncommittedEvents ∧
    (loadFromHistory h a es).loadedEvents = a.loadedEvents ++ es ∧
    (loadFromHistory h a es).loadedEventNodes = a.loadedEventNodes ∧
    (loadFromHistory h a es).state = es.foldl (dispatch h) a.state := by
  induction es generalizing a with
  | nil => simp [loadFromHistory_nil]
  | cons e es ih =>
    rw [loadFromHistory_cons]
    obtain ⟨h1, h2, h3, h4⟩ := ih
      { a.apply h e true with loadedEvents := (a.apply h e true).loadedEvents ++ [e] }
    refine ⟨?_, ?_, ?_, ?_⟩ <;>
      simp_all [Aggregate.apply]

theorem nodesFold_fields (h : Handlers) (a : Aggregate) (ns : List EventNode) :
    (ns.foldl (fun acc n =>
      let acc1 := acc.apply h n.event true
      { acc1 with loadedEventNodes := acc1.loadedEventNodes ++ [n] }) a).uncommittedEvents
        = a.uncommittedEvents ∧
    (ns.foldl (fun acc n =>
      let acc1 := acc.apply h n.event true
      { acc1 with loadedEventNodes := acc1.loadedEventNodes ++ [n] }) a).loadedEvents
        = a.loadedEvents ∧
    (ns.foldl (fun acc n =>
      let acc1 := acc.apply h n.event true
      { acc1 with loadedEventNodes := acc1.loadedEventNodes ++ [n] }) a).loadedEventNodes
        = a.loadedEventNodes ++ ns ∧
    (ns.foldl (fun acc n =>
      let acc1 := acc.apply h n.event true
      { acc1 with loadedEventNodes := acc1.loadedEventNodes ++ [n] }) a).state
        = (ns.map EventNode.event).foldl (dispatch h) a.state := by
  induction ns generalizing a with
  | nil => simp
  | cons n ns ih =>
    obtain ⟨h1, h2, h3, h4⟩ := ih
      { a.apply h n.event true with
        loadedEventNodes := (a.apply h n.event true).loadedEventNodes ++ [n] }
    refine ⟨?_, ?_, ?_, ?_⟩ <;> simp_all [Aggregate.apply]

theorem loadFromEventNodes_fields (h : Handlers) (a : Aggregate) (ns : List EventNode) :
    (loadFromEventNodes h a ns).uncommittedEvents = a.uncommittedEvents ∧
    (loadFromEventNodes h a ns).loadedEventNodes = a.loadedEventNodes ++ ns ∧
    (loadFromEventNodes h a ns).loadedEvents = a.loadedEvents ++ ns.map EventNode.event ∧
    (loadFromEventNodes h a ns).state =
      (ns.map EventNode.event ++ ns.map EventNode.event).foldl (dispatch h) a.state := by
  unfold loadFromEventNodes
  obtain ⟨n1, n2, n3, n4⟩ := nodesFold_fields h a ns
  obtain ⟨l1, l2, l3, l4⟩ := loadFromHistory_fields h
    (ns.foldl (fun acc n =>
      let acc1 := acc.apply h n.event true
      { acc1 with loadedEventNodes := acc1.loadedEventNodes ++ [n] }) a)
    (ns.map EventNode.event)
  refine ⟨?_, ?_, ?_, ?_⟩ <;> simp_all [List.foldl_append]

/-! ## Claim theorems -/

/-- C1: `apply(e, isFromHistory=false)` appends `e` to the uncommitted
buffer and dispatches it to the handler named `on` ++ the event's type
identity when such a callable method exists; with no matching handler
the call raises nothing, the event is still recorded, and state is
unchanged; `apply(e, isFromHistory=true)` dispatches but never appends. -/
theorem apply_spec (h : Handlers) (a : Aggregate) (e : Event) :
    ((a.apply h e false).uncommittedEvents = a.uncommittedEvents ++ [e]) ∧
    ((a.apply h e false).state = dispatch h a.state e) ∧
    ((a.apply h e true).uncommittedEvents = a.uncommittedEvents) ∧
    ((a.apply h e true).state = dispatch h a.state e) ∧
    (∀ f, getEventHandler h e = some f → dispatch h a.state e = f a.state e) ∧
    (getEventHandler h e = none →
      (a.apply h e false).state = a.state ∧ (a.apply h e true).state = a.state) := by
  refine ⟨by simp [Aggregate.apply], by simp [Aggregate.apply],
    by simp [Aggregate.apply], by simp [Aggregate.apply], ?_, ?_⟩
  · intro f hf
    simp [dispatch, hf]
  · intro hf
    simp [Aggregate.apply, dispatch, hf]

/-- Witness for C1 at a concrete input: a bare aggregate has no
`onFirst` handler, yet applying `First` records it and leaves state
unchanged. -/
theorem apply_spec_witness :
    getEventHandler noHandlers evFirst = none ∧
    (agg0.apply noHandlers evFirst false).uncommittedEvents
      = agg0.uncommittedEvents ++ [evFirst] ∧
    (agg0.apply noHandlers evFirst false).state = agg0.state :=
  ⟨rfl, (apply_spec noHandlers agg0 evFirst).1,
    ((apply_spec noHandlers agg0 evFirst).2.2.2.2.2 rfl).1⟩

/-- C2: across the public operations, the uncommitted buffer grows only
through `apply` with `isFromHistory = false`, is emptied only by
`commit`/`uncommit` (always to length 0, whatever it held), and is left
untouched by every other operation. -/
theorem uncommitted_buffer_transitions (h : Handlers) (a : Aggregate) :
    (∀ e, (step h a (.applyOp e false)).uncommittedEvents = a.uncommittedEvents ++ [e]) ∧
    (step h a .commitOp).uncommittedEvents = [] ∧
    (step h a .uncommitOp).uncommittedEvents = [] ∧
    (∀ e, (step h a (.applyOp e true)).uncommittedEvents = a.uncommittedEvents) ∧
    (∀ es, (step h a (.loadFromHistoryOp es)).uncommittedEvents = a.uncommittedEvents) ∧
    (∀ ns, (step h a (.loadFromEventNodesOp ns)).uncommittedEvents = a.uncommittedEvents) ∧
    (step h a .snapshotOp).uncommittedEvents = a.uncommittedEvents ∧
    (∀ hd, (step h a (.setFailureHandlerOp hd)).uncommittedEvents = a.uncommittedEvents) ∧
    (∀ err, (step h a (.failOp err)).uncommittedEvents = a.uncommittedEvents) ∧
    (step h a .getStateOp).uncommittedEvents = a.uncommittedEvents ∧
    (step h a .getUncommittedEventsOp).uncommittedEvents = a.uncommittedEvents ∧
    (step h a .getLoadedEventsOp).uncommittedEvents = a.uncommittedEvents ∧
    (step h a .getLoadedEventNodesOp).uncommittedEvents = a.uncommittedEvents := by
  refine ⟨fun e => by simp [step, Aggregate.apply], rfl, rfl,
    fun e => by simp [step, Aggregate.apply],
    fun es => (loadFromHistory_fields h a es).1,
    fun ns => (loadFromEventNodes_fields h a ns).1,
    rfl, fun hd => rfl, fun err => rfl, rfl, rfl, rfl, rfl⟩

/-- C3: `loadFromHistory(events)` never changes the uncommitted buffer,
appends exactly the given events in order to the loaded-events record,
and accumulates across repeated calls without resetting. -/
theorem loadFromHistory_spec (h : Handlers) (a : Aggregate) (es es2 : List Event) :
    (loadFromHistory h a es).uncommittedEvents.length = a.uncommittedEvents.length ∧
    (loadFromHistory h a es).uncommittedEvents = a.uncommittedEvents ∧
    (loadFromHistory h a es).loadedEvents = a.loadedEvents ++ es ∧
    (loadFromHistory h a es).loadedEvents.length = a.loadedEvents.length + es.length ∧
    (loadFromHistory h (loadFromHistory h a es) es2).loadedEvents
      = a.loadedEvents ++ es ++ es2 := by
  obtain ⟨h1, h2, h3, h4⟩ := loadFromHistory_fields h a es
  obtain ⟨g1, g2, g3, g4⟩ := loadFromHistory_fields h (loadFromHistory h a es) es2
  refine ⟨by rw [h1], h1, h2, by rw [h2]; simp, by rw [g2, h2]⟩

/-- C4: `loadFromEventNodes(nodes)` appends each node once to the node
record and each extracted event once to the loaded-events record, never
touches the uncommitted buffer, and its net state effect is a dispatch
of the extracted event sequence twice over (once directly, once through
the nested `loadFromHistory` pass). -/
theorem loadFromEventNodes_spec (h : Handlers) (a : Aggregate) (ns : List EventNode) :
    (loadFromEventNodes h a ns).uncommittedEvents = a.uncommittedEvents ∧
    (loadFromEventNodes h a ns).loadedEventNodes = a.loadedEventNodes ++ ns ∧
    (loadFromEventNodes h a ns).loadedEvents = a.loadedEvents ++ ns.map EventNode.event ∧
    (loadFromEventNodes h a ns).state =
      (ns.map EventNode.event ++ ns.map EventNode.event).foldl (dispatch h) a.state :=
  loadFromEventNodes_fields h a ns

/-- C8: `fail(e)` invokes the installed handler with `e` and returns
when one is installed, raises `e` itself when none is installed, and
`setFailureHandler` is last-writer-wins. -/
theorem fail_spec (a : Aggregate) (err : String) :
    (∀ hd, a.failureHandler = some hd → a.fail err = .ok (hd, err)) ∧
    (a.failureHandler = none → a.fail err = .error err) ∧
    (∀ h1 h2, ((a.setFailureHandler h1).setFailureHandler h2).failureHandler = some h2) := by
  refine ⟨?_, ?_, fun h1 h2 => rfl⟩
  · intro hd hh
    simp [Aggregate.fail, hh]
  · intro hh
    simp [Aggregate.fail, hh]

/-- Witness for C8: with handler 7 installed, `fail` routes to it; on a
fresh aggregate, `fail` raises the error itself. -/
theorem fail_spec_witness :
    (agg0.setFailureHandler 7).failureHandler = some 7 ∧
    (agg0.setFailureHandler 7).fail "boom" = .ok (7, "boom") ∧
    agg0.failureHandler = none ∧
    agg0.fail "boom" = .error "boom" :=
  ⟨rfl, (fail_spec (agg0.setFailureHandler 7) "boom").1 7 rfl,
    rfl, (fail_spec agg0 "boom").2.1 rfl⟩

/-- C9: over the stream `[First, Middle, Last]`, `first.event(First)`
and `last.event(Last)` succeed, and `first.event(Middle)` fails with
actual `Middle` and expected `First`. -/
theorem first_last_assertions :
    (check0.has.first).event aggFML "First" =
      .ok ⟨["has", "first"], ["First"], -1, none⟩ ∧
    (check0.has.last).event aggFML "Last" =
      .ok ⟨["has", "last"], ["Last"], -1, none⟩ ∧
    (check0.has.first).event aggFML "Middle" =
      .error ⟨"Event Middle is not the first event in the aggregate event stream.",
        "Middle", "First"⟩ :=
  ⟨rfl, rfl, rfl⟩

/-- C5 counterexample: on an aggregate to which no event was ever
applied, an `excludes` check for the never-applied type `Created` does
not succeed — the evaluation fails up front because the buffer is
empty. -/
theorem excludes_empty_counterexample :
    (check0.excludes).event agg0 "Created" =
      .error ⟨"There are no events in the aggregate event stream to evaluate.",
        "0", "1 or more"⟩ :=
  rfl

/-- C5 (amended): provided the uncommitted buffer is non-empty, an
`excludes` check for a type occurring zero times succeeds — skipping
every other armed flag check — and after the type has been applied even
once it fails with the observed occurrence count as actual and `0` as
expected. -/
theorem excludes_spec (flags : List String) (t : String) (occExp : Int)
    (uncommitted : List Event)
    (hne : uncommitted ≠ [])
    (hex : flags.contains "excludes" = true) :
    (occurances (uncommitted.map Event.kind) t = 0 →
      assertEvent flags [t] occExp uncommitted = .ok ()) ∧
    (∀ n, occurances (uncommitted.map Event.kind) t = n → 0 < n →
      assertEvent flags [t] occExp uncommitted =
        .error ⟨s!"Event {t} was found in the aggregate event stream.",
          toString n, "0"⟩) := by
  have hlen : (uncommitted.length == 0) = false := by
    simp [List.length_eq_zero, hne]
  have hex2 : "excludes" ∈ flags := by
    simpa using hex
  constructor
  · intro h0
    simp [assertEvent, hlen, hex2, firstSome, h0]
  · intro n hn hpos
    have hn0 : ¬ n = 0 := by omega
    simp [assertEvent, hlen, hex2, firstSome, hn, hn0]

/-- Witness for C5 (amended): with only `Updated` in the buffer and the
`first` flag also armed, excluding `Created` succeeds (the armed `first`
check, which would fail, is skipped), and excluding `Updated` fails
with actual 1, expected 0. -/
theorem excludes_spec_witness :
    ([evUpdated] : List Event) ≠ [] ∧
    (["excludes", "first"] : List String).contains "excludes" = true ∧
    assertEvent ["excludes", "first"] ["Created"] (-1) [evUpdated] = .ok () ∧
    assertEvent ["excludes", "first"] ["Updated"] (-1) [evUpdated] =
      .error ⟨"Event Updated was found in the aggregate event stream.", "1", "0"⟩ :=
  ⟨by decide, rfl,
    (excludes_spec ["excludes", "first"] "Created" (-1) [evUpdated]
      (by decide) rfl).1 rfl,
    (excludes_spec ["excludes", "first"] "Updated" (-1) [evUpdated]
      (by decide) rfl).2 1 rfl (by decide)⟩

/-- C6: with the `throws` flag armed, an operation run through
`when(fn)` or `after(fn)` that does not raise is itself a failure: the
chain reports the "Failed to throw" assertion error. -/
theorem throws_requires_raise (c : Chain) (a a2 : Aggregate) (fn : WhenCallback)
    (hthrows : c.flags.contains "throws" = true) (hok : fn a = .ok a2) :
    Chain.when c a fn =
      .error ⟨"Failed to throw error for aggregate method", "", ""⟩ ∧
    Chain.after c a [fn] =
      .error ⟨"Failed to throw error for aggregate method", "", ""⟩ := by
  have ht : "throws" ∈ c.flags := by simpa using hthrows
  have h1 : assertWhen c.flags c.withMessage fn a =
      .error ⟨"Failed to throw error for aggregate method", "", ""⟩ := by
    simp [assertWhen, ht, hok]
  exact ⟨by simp [Chain.when, h1], by simp [Chain.after, h1]⟩

/-- Witness for C6: a `throws`-armed chain over an operation that
returns normally reports the failure. -/
theorem throws_requires_raise_witness :
    (check0.throws).flags.contains "throws" = true ∧
    (fun (x : Aggregate) => (Except.ok x : Except String Aggregate)) agg0 = .ok agg0 ∧
    Chain.when (check0.throws) agg0 (fun x => (.ok x : Except String Aggregate)) =
      .error ⟨"Failed to throw error for aggregate method", "", ""⟩ :=
  ⟨rfl, rfl,
    (throws_requires_raise (check0.throws) agg0 agg0
      (fun x => (.ok x : Except String Aggregate)) rfl rfl).1⟩

/-- C7: with `throws` armed and the operation raising "token invalid",
`.with("invalid")` succeeds while `.with("expired")` fails, and in
general a non-empty expected message is compared as a case-insensitive
substring of the raised message. -/
theorem with_message_substring (c : Chain) (a : Aggregate) (fn : WhenCallback)
    (hthrows : c.flags.contains "throws" = true)
    (hraise : fn a = .error "token invalid") :
    Chain.when (c.withMsg "invalid") a fn = .ok (c.withMsg "invalid", a) ∧
    Chain.when (c.withMsg "expired") a fn =
      .error ⟨"Expected error message did not match", "token invalid", "expired"⟩ ∧
    (∀ m w, w ≠ "" →
      (assertWhen c.flags (some w) (fun _ => .error m) a = .ok a ↔
        strIncludes (lowerStr m) (lowerStr w) = true)) := by
  have ht : "throws" ∈ c.flags := by simpa using hthrows
  have hinc : strIncludes (lowerStr "token invalid") (lowerStr "invalid") = true := by decide
  have hexc : strIncludes (lowerStr "token invalid") (lowerStr "expired") = false := by decide
  refine ⟨?_, ?_, ?_⟩
  · simp [Chain.when, Chain.withMsg, assertWhen, ht, hraise, hinc]
  · simp [Chain.when, Chain.withMsg, assertWhen, ht, hraise, hexc]
  · intro m w hw
    have hw2 : (w != "") = true := by simpa using hw
    cases hs : strIncludes (lowerStr m) (lowerStr w) <;>
      simp [assertWhen, ht, hw2, hs]

/-- Witness for C7: the concrete `throws`-armed chain over an operation
raising "token invalid", with expected message "invalid". -/
theorem with_message_substring_witness :
    (check0.throws).flags.contains "throws" = true ∧
    (fun (_ : Aggregate) => (Except.error "token invalid" : Except String Aggregate)) agg0
      = .error "token invalid" ∧
    Chain.when ((check0.throws).withMsg "invalid") agg0
        (fun _ => (.error "token invalid" : Except String Aggregate)) =
      .ok ((check0.throws).withMsg "invalid", agg0) :=
  ⟨rfl, rfl,
    (with_message_substring (check0.throws) agg0
      (fun _ => (.error "token invalid" : Except String Aggregate)) rfl rfl).1⟩

theorem firstSome_eq_none_iff {α β : Type} (l : List α) (f : α → Option β) :
    firstSome l f = none ↔ ∀ x ∈ l, f x = none := by
  induction l with
  | nil => simp [firstSome]
  | cons x xs ih =>
    cases hfx : f x <;> simp [firstSome, hfx, ih]

theorem propFailure_eq_none_iff (u : Event) (t p : String) (v : Value) :
    propFailure u t p v = none ↔ propPasses (u.getField p) v = true := by
  unfold propFailure propPasses
  cases hu : u.getField p with
  | none => simp
  | some val =>
    cases val with
    | prim sc => cases v <;> simp
    | arr xs =>
      cases v with
      | prim sc => simp
      | arr ys => by_cases hall : ys.all (fun y => xs.contains y) = true <;> simp [hall]

/-- C10: without the `last` flag, `includes(params)` compares the given
fields against every uncommitted event whose type identity matches a
recorded target, so any matching event with a differing field value
makes the call fail — in particular two same-typed uncommitted events
carrying different scalar values for one field cannot both pass a
single `includes` check. -/
theorem includes_checks_every_match (flags targets : List String)
    (params : List (String × Value)) (uncommitted : List Event)
    (hlast : flags.contains "last" = false) :
    (∀ u, u ∈ uncommitted → targets.contains u.kind = true →
      ∀ p v, (p, v) ∈ params → propPasses (u.getField p) v = false →
      ∃ err, assertEventParams flags targets params uncommitted = .error err) ∧
    (∀ u1 u2 p s1 s2 v, u1 ∈ uncommitted → u2 ∈ uncommitted →
      u1.kind = u2.kind → targets.contains u1.kind = true →
      u1.getField p = some (Value.prim s1) → u2.getField p = some (Value.prim s2) →
      s1 ≠ s2 → (p, v) ∈ params →
      ∃ err, assertEventParams flags targets params uncommitted = .error err) := by
  have hl : "last" ∉ flags := by simpa using hlast
  have main : ∀ u, u ∈ uncommitted → targets.contains u.kind = true →
      ∀ p v, (p, v) ∈ params → propPasses (u.getField p) v = false →
      ∃ err, assertEventParams flags targets params uncommitted = .error err := by
    intro u hu hk p v hpv hfail
    have hkmem : u.kind ∈ targets := by simpa using hk
    by_cases hlen : (targets.length == 0) = true
    · exact ⟨⟨"No events listed - cannot assert event includes params", "", ""⟩,
        by simp [assertEventParams, hlen]⟩
    have hlen2 : (targets.length == 0) = false := by
      cases hb : (targets.length == 0) with
      | false => rfl
      | true => exact absurd hb hlen
    cases hscan : includesScan targets params uncommitted with
    | some err =>
      exact ⟨err, by simp [assertEventParams, hlen2, hl, hscan]⟩
    | none =>
      exfalso
      unfold includesScan at hscan
      rw [firstSome_eq_none_iff] at hscan
      have h1 := hscan u.kind hkmem
      rw [firstSome_eq_none_iff] at h1
      have h2 := h1 u hu
      rw [if_pos (by simp)] at h2
      rw [firstSome_eq_none_iff] at h2
      have h3 := h2 (p, v) hpv
      rw [propFailure_eq_none_iff] at h3
      rw [h3] at hfail
      exact Bool.true_eq_false.mp hfail
  refine ⟨main, ?_⟩
  intro u1 u2 p s1 s2 v hu1 hu2 hkk hk1 hf1 hf2 hss hpv
  by_cases hp1 : propPasses (u1.getField p) v = false
  · exact main u1 hu1 hk1 p v hpv hp1
  by_cases hp2 : propPasses (u2.getField p) v = false
  · exact main u2 hu2 (by rw [← hkk]; exact hk1) p v hpv hp2
  exfalso
  have h1 : propPasses (u1.getField p) v = true := by
    cases hb : propPasses (u1.getField p) v
    · exact absurd hb hp1
    · rfl
  have h2 : propPasses (u2.getField p) v = true := by
    cases hb : propPasses (u2.getField p) v
    · exact absurd hb hp2
    · rfl
  rw [hf1] at h1
  rw [hf2] at h2
  cases v with
  | prim sv =>
    have e1 : s1 = sv := by
      simpa [propPasses] using h1
    have e2 : s2 = sv := by
      simpa [propPasses] using h2
    exact hss (e1.trans e2.symm)
  | arr vs =>
    simp [propPasses] at h1

/-- A `Created` event whose `id` field is the string "a". -/
def evCreatedA : Event := ⟨"Created", [("id", Value.prim (Scalar.s "a"))]⟩

/-- A `Created` event whose `id` field is the string "b". -/
def evCreatedB : Event := ⟨"Created", [("id", Value.prim (Scalar.s "b"))]⟩

/-- Witness for C10: two `Created` events with different `id` values
cannot both pass one `includes` check for `id = "a"`. -/
theorem includes_checks_every_match_witness :
    ((["has"] : List String).contains "last" = false) ∧
    (∃ err, assertEventParams ["has"] ["Created"]
      [("id", Value.prim (Scalar.s "a"))] [evCreatedA, evCreatedB] = .error err) :=
  ⟨rfl,
    (includes_checks_every_match ["has"] ["Created"]
        [("id", Value.prim (Scalar.s "a"))] [evCreatedA, evCreatedB] rfl).2
      evCreatedA evCreatedB "id" (Scalar.s "a") (Scalar.s "b")
      (Value.prim (Scalar.s "a"))
      (by simp) (by simp) rfl rfl rfl rfl (by decide) (by simp)⟩

end LabAggregate
